import Mathlib

/-!
# Container bootstrap (`main.go`): a shallow embedding

The program has two entry points, `Run` (outer process: re-executes the binary
in new namespaces) and `InitContainer` (inner process: hostname, cgroup, mounts,
pivot root, capabilities, exec of the shell), selected by `main`.

Kernel and library calls are recorded as `Effect` values; their results are
supplied by a `Sys` value that may depend on everything issued before.
-/

namespace Container

/-! ## Go errors and `fmt.Errorf` -/

/-- A Go `error` value: its message and, for an error built by `fmt.Errorf`
with `%w` on a non-nil operand, the error it wraps. -/
inductive GoError where
  | leaf (msg : String)
  | wrapped (msg : String) (cause : GoError)
  deriving DecidableEq, Repr

/-- The method `Error()`. -/
def GoError.Error : GoError → String
  | .leaf m => m
  | .wrapped m _ => m

/-- The function `errors.Unwrap`. -/
def GoError.Unwrap : GoError → Option GoError
  | .leaf _ => none
  | .wrapped _ c => some c

/-- The verb that ends each format string of `main.go`. -/
inductive Verb where
  | w
  | s
  deriving DecidableEq, Repr

/-- The call `fmt.Errorf(ctx + "%w", err)` or `fmt.Errorf(ctx + "%s", err)` for an
operand `err` of interface type `error` (`none` is the nil interface).
A nil operand is printed by package `fmt` as a bad verb, `%!w(<nil>)`, and
nothing is wrapped; the result is never nil. -/
def Errorf (ctx : String) : Verb → Option GoError → GoError
  | .w, some e => .wrapped (ctx ++ e.Error) e
  | .w, none => .leaf (ctx ++ "%!w(<nil>)")
  | .s, some e => .leaf (ctx ++ e.Error)
  | .s, none => .leaf (ctx ++ "%!s(<nil>)")

/-! ## Capabilities (package `gocapability/capability`) -/

/-- The capability number `capability.CAP_CHOWN`. -/
def CAP_CHOWN : Nat := 0

/-- The set selector `capability.EFFECTIVE`. -/
def EFFECTIVE : Nat := 1
/-- The set selector `capability.PERMITTED`. -/
def PERMITTED : Nat := 2
/-- The set selector `capability.INHERITABLE`. -/
def INHERITABLE : Nat := 4
/-- The set selector `capability.BOUNDING`. -/
def BOUNDING : Nat := 8
/-- The set selector `capability.AMBIENT`. -/
def AMBIENT : Nat := 16
/-- The selector `capability.CAPS`. -/
def CAPS : Nat := EFFECTIVE ||| PERMITTED ||| INHERITABLE
/-- The selector `capability.BOUNDS`. -/
def BOUNDS : Nat := BOUNDING

/-- The state held by a `capability.Capabilities` object: for each set, the
capability numbers that are raised in it. -/
structure Caps where
  effective : List Nat
  permitted : List Nat
  inheritable : List Nat
  bounding : List Nat
  ambient : List Nat
  deriving DecidableEq, Repr

/-- The capability number `capability.CAP_DAC_OVERRIDE`. -/
def CAP_DAC_OVERRIDE : Nat := 1

/-- The object `capability.NewPid2(pid)` returns: initialised for the process
and with nothing loaded, so every set is empty. The sets of the process are
only read by the method `Load`, which `main.go` never calls. -/
def newPidObject : Caps :=
  { effective := [], permitted := [], inheritable := [], bounding := [], ambient := [] }

/-- Clearing the capabilities `drop` in one set when the selector bit `bit` is in
`which`. -/
def unsetIn (which bit : Nat) (drop : List Nat) (set : List Nat) : List Nat :=
  if which &&& bit ≠ 0 then set.filter (fun c => decide (c ∉ drop)) else set

/-- The method `Unset(which, caps...)`: clears every listed capability in every
set selected by `which`. It works on the object only, no system call. -/
def Caps.Unset (c : Caps) (which : Nat) (drop : List Nat) : Caps :=
  { effective := unsetIn which EFFECTIVE drop c.effective
    permitted := unsetIn which PERMITTED drop c.permitted
    inheritable := unsetIn which INHERITABLE drop c.inheritable
    bounding := unsetIn which BOUNDING drop c.bounding
    ambient := unsetIn which AMBIENT drop c.ambient }

/-! ## System effects -/

/-- The flag `syscall.MS_NOSUID`. -/
def MS_NOSUID : Nat := 0x2
/-- The flag `syscall.MS_NODEV`. -/
def MS_NODEV : Nat := 0x4
/-- The flag `syscall.MS_NOEXEC`. -/
def MS_NOEXEC : Nat := 0x8
/-- The flag `syscall.MS_BIND`. -/
def MS_BIND : Nat := 0x1000
/-- The flag `syscall.MS_REC`. -/
def MS_REC : Nat := 0x4000
/-- The flag `syscall.MNT_DETACH`. -/
def MNT_DETACH : Nat := 0x2

/-- One call of `InitContainer` into the kernel or into a library that calls
the kernel, with its arguments. -/
inductive Effect where
  | sethostname (name : String)
  | mkdirAll (path : String) (perm : Nat)
  | writeFile (path : String) (data : String) (perm : Nat)
  | mount (source target fstype : String) (flags : Nat) (data : String)
  | removeAll (path : String)
  | symlink (oldname newname : String)
  | chdir (path : String)
  | pivotRoot (newroot putold : String)
  | unmount (target : String) (flags : Nat)
  | newPid2 (pid : Nat)
  | capApply (caps : Caps) (kind : Nat)
  | exec (argv0 : String) (argv : List String) (envv : List String)
  deriving DecidableEq, Repr

/-- The system the process runs on. `call hist e` is the error with which the
effect `e` fails when `hist` has been issued before it (`none`: it succeeds). -/
structure Sys where
  call : List Effect → Effect → Option GoError

/-- The process that runs `InitContainer`: `os.Getpid()`, `os.Environ()`, the
order in which `range` visits the four entries of the symlink map (Go leaves
the order of a map iteration open), and the capability sets the process holds
when `InitContainer` starts, which `InitContainer` never reads. -/
structure Proc where
  pid : Nat
  environ : List String
  rangeOrder : Equiv.Perm (Fin 4)
  caps : Caps

/-- How a call of `InitContainer` ends: `syscall.Exec` succeeded and the process
image was replaced (the call never returns), or it returned `err`. -/
inductive InitResult where
  | replaced
  | returned (err : Option GoError)
  deriving DecidableEq, Repr

/-- The statement `if err := e; err != nil { return fmt.Errorf(ctx+verb, err) }`
followed by the rest `k` of the function. -/
def step (sys : Sys) (tr : List Effect) (e : Effect) (ctx : String) (verb : Verb)
    (k : List Effect → List Effect × InitResult) : List Effect × InitResult :=
  match sys.call tr e with
  | some err => (tr ++ [e], .returned (some (Errorf ctx verb (some err))))
  | none => k (tr ++ [e])

/-- The map literal of the `range` loop, as `(from, to)` entries in the order
they are written. -/
def devLinks (pivotpath : String) : Fin 4 → String × String
  | 0 => ("/proc/self/fd", pivotpath ++ "/dev/fd")
  | 1 => ("/proc/self/fd/0", pivotpath ++ "/dev/stdin")
  | 2 => ("/proc/self/fd/1", pivotpath ++ "/dev/stdout")
  | 3 => ("/proc/self/fd/2", pivotpath ++ "/dev/stderr")

/-- The entries of the map in the order the `range` loop visits them. -/
def rangeLinks (proc : Proc) (pivotpath : String) : List (String × String) :=
  ([0, 1, 2, 3] : List (Fin 4)).map (fun i => devLinks pivotpath (proc.rangeOrder i))

/-- The loop `for from, to := range ... { if err := syscall.Symlink(from, to); ... }`
over the entries still to visit. -/
def symlinkLoop (sys : Sys) :
    List (String × String) → List Effect → (List Effect → List Effect × InitResult) →
    List Effect × InitResult
  | [], tr, k => k tr
  | l :: rest, tr, k =>
    step sys tr (.symlink l.1 l.2) "ln failed: " .w (fun tr => symlinkLoop sys rest tr k)

/-- The function `InitContainer(pivotpath)`: the effects it issued, in order, and
how it ended. -/
def InitContainer (sys : Sys) (proc : Proc) (pivotpath : String) :
    List Effect × InitResult :=
  -- set hostname
  step sys [] (.sethostname "container") "Setting hostname failed!: " .w fun tr =>
  -- cgroup
  step sys tr (.mkdirAll "/sys/fs/cgroup/my-container" 0o700)
    "Cgroups namespace create failed!: " .w fun tr =>
  step sys tr (.writeFile "/sys/fs/cgroup/my-container/cgroup.procs"
      (toString proc.pid ++ "\n") 0o644)
    "Cgroup register tasks to my-container namespace failed!: " .w fun tr =>
  step sys tr (.writeFile "/sys/fs/cgroup/my-container/cpu.max" "10000 100000\n" 0o644)
    "Cgroup add limit cpu failed!: " .w fun tr =>
  -- mk proc
  step sys tr (.mount "proc" (pivotpath ++ "/proc") "proc"
      (MS_NOEXEC ||| MS_NOSUID ||| MS_NODEV) "")
    "Proc mount failed!: " .w fun tr =>
  -- mk dev
  step sys tr (.removeAll (pivotpath ++ "/dev")) "Remove dev dir failed: " .w fun tr =>
  step sys tr (.mkdirAll (pivotpath ++ "/dev") 0o777) "Make dev dir failed: " .w fun tr =>
  symlinkLoop sys (rangeLinks proc pivotpath) tr fun tr =>
  -- Pivot root
  step sys tr (.chdir "/root") "Chdir /root failed!: " .w fun tr =>
  step sys tr (.mount pivotpath "/root/rootfs" "" (MS_BIND ||| MS_REC) "")
    "Rootfs bind mount failed!: " .w fun tr =>
  step sys tr (.mkdirAll "/root/rootfs/oldrootfs" 0o700) "Oldrootfs create failed!: " .w fun tr =>
  step sys tr (.pivotRoot "rootfs" "/root/rootfs/oldrootfs") "Pivotroot failed!: " .s fun tr =>
  step sys tr (.unmount "/oldrootfs" MNT_DETACH) "Oldrootfs umount failed!: " .s fun tr =>
  step sys tr (.removeAll "/oldrootfs") "Remove oldrootfs failed: " .w fun tr =>
  -- process init
  step sys tr (.chdir "/") "Chdir failed!: " .w fun tr =>
  -- capability
  let drop := [CAP_CHOWN]
  let caps := newPidObject
  let err := sys.call tr (.newPid2 proc.pid)
  let tr := tr ++ [.newPid2 proc.pid]
  if err ≠ none then
    (tr, .returned (some (Errorf "Make Capability failed!: " .w err)))
  else
  let caps := caps.Unset (CAPS ||| BOUNDS) drop
  if sys.call tr (.capApply caps (CAPS ||| BOUNDS)) ≠ none then
    (tr ++ [.capApply caps (CAPS ||| BOUNDS)],
      .returned (some (Errorf "Apply Capability failed!: " .w err)))
  else
  let tr := tr ++ [.capApply caps (CAPS ||| BOUNDS)]
  -- exec
  match sys.call tr (.exec "/bin/sh" ["/bin/sh"] proc.environ) with
  | some err =>
    (tr ++ [.exec "/bin/sh" ["/bin/sh"] proc.environ],
      .returned (some (Errorf "Exec failed!: " .w (some err))))
  | none => (tr ++ [.exec "/bin/sh" ["/bin/sh"] proc.environ], .replaced)

/-! ## The outer process: `Run` -/

/-- The flag `syscall.CLONE_NEWNS`. -/
def CLONE_NEWNS : Nat := 0x00020000
/-- The flag `syscall.CLONE_NEWUTS`. -/
def CLONE_NEWUTS : Nat := 0x04000000
/-- The flag `syscall.CLONE_NEWIPC`. -/
def CLONE_NEWIPC : Nat := 0x08000000
/-- The flag `syscall.CLONE_NEWUSER`. -/
def CLONE_NEWUSER : Nat := 0x10000000
/-- The flag `syscall.CLONE_NEWPID`. -/
def CLONE_NEWPID : Nat := 0x20000000
/-- The flag `syscall.CLONE_NEWNET`. -/
def CLONE_NEWNET : Nat := 0x40000000

/-- The type `syscall.SysProcIDMap`. -/
structure SysProcIDMap where
  ContainerID : Nat
  HostID : Nat
  Size : Nat
  deriving DecidableEq, Repr

/-- The fields of `syscall.SysProcAttr` that `Run` sets. -/
structure SysProcAttr where
  Cloneflags : Nat
  UidMappings : List SysProcIDMap
  GidMappings : List SysProcIDMap
  deriving DecidableEq, Repr

/-- The fields of `exec.Cmd` that `Run` sets (the three standard streams are the
caller's own and are left out). -/
structure Cmd where
  Path : String
  Args : List String
  attr : SysProcAttr
  deriving DecidableEq, Repr

/-- How the command started by `cmd.Run()` ended: it terminated with an exit
status, or it did not (it could not be started or waited for, or a signal
ended it) and `cmd.Run()` reports `cause`. -/
inductive ChildEnd where
  | failed (cause : GoError)
  | exited (status : Nat)
  deriving DecidableEq, Repr

/-- The invoking user and the host: `os.Getuid()`, `os.Getgid()`, and what
happens to a command that is run. -/
structure Host where
  uid : Nat
  gid : Nat
  spawn : Cmd → ChildEnd

/-- The method `cmd.Run()` of package `os/exec`: nil exactly when the command
ran and exited with status zero, otherwise the start error or an
`*exec.ExitError`. -/
def cmdRun (host : Host) (cmd : Cmd) : Option GoError :=
  match host.spawn cmd with
  | .failed cause => some cause
  | .exited 0 => none
  | .exited (n + 1) => some (.leaf ("exit status " ++ toString (n + 1)))

/-- Lines 19 to 47 of `Run`: the command and its spawn attributes. -/
def runCmd (host : Host) (pivotpath : String) : Cmd :=
  { Path := "/proc/self/exe"
    Args := ["/proc/self/exe", "-pivot", pivotpath, "init"]
    attr :=
      { Cloneflags := CLONE_NEWIPC ||| CLONE_NEWNET ||| CLONE_NEWNS ||| CLONE_NEWPID |||
          CLONE_NEWUSER ||| CLONE_NEWUTS
        UidMappings := [{ ContainerID := 0, HostID := host.uid, Size := 1 }]
        GidMappings := [{ ContainerID := 0, HostID := host.uid, Size := 1 }] } }

/-- The function `Run(pivotpath)`: what it writes to standard error and the code
it passes to `os.Exit`. -/
def Run (host : Host) (pivotpath : String) : String × Nat :=
  match cmdRun host (runCmd host pivotpath) with
  | some err => ("Error: " ++ err.Error ++ "\n", 1)
  | none => ("", 0)

/-! ## Package `flag` as `main` uses it: one string flag, `ExitOnError` -/

/-- What `parseOne` of package `flag` makes of the first argument. -/
inductive ArgShape where
  | positional
  | terminator
  | badSyntax
  | named (name : String) (value : Option String)
  deriving DecidableEq, Repr

/-- The analysis `parseOne` applies to one argument `s`, given as its characters
(Go indexes bytes; the bytes it tests, `-` and `=`, are ASCII, so on valid UTF-8
the characters give the same answer):
an argument shorter than two characters or not starting with `-` is no flag;
`--` ends the flags; an empty name or a name starting with `-` or `=` is bad
syntax; a `=` after the first character of the name splits off a value. -/
def argShape (s : List Char) : ArgShape :=
  match s with
  | [] => .positional
  | [_] => .positional
  | c0 :: c1 :: cs =>
    if c0 ≠ '-' then .positional
    else if c1 = '-' ∧ cs = [] then .terminator
    else
      let name := if c1 = '-' then cs else c1 :: cs
      match name with
      | [] => .badSyntax
      | n0 :: ns =>
        if n0 = '-' ∨ n0 = '=' then .badSyntax
        else
          match ns.span (fun c => c ≠ '=') with
          | (_, []) => .named (String.mk (n0 :: ns)) none
          | (before, _ :: value) => .named (String.mk (n0 :: before)) (some (String.mk value))

/-- The outcome of `flag.Parse()`: the value of the flag and the remaining
arguments, or the code with which `ExitOnError` ends the process. -/
inductive Parsed where
  | ok (pivotpath : String) (rest : List String)
  | exit (code : Nat)
  deriving DecidableEq, Repr

/-- The function `flag.Parse()` on the arguments after the program name, for
the single flag `pivot` of type string whose current value is `pivotpath`.
An undefined flag ends the process with code 2 (`-h` and `-help` with code 0),
as does a missing value; a value given as the next argument is taken
whatever it looks like. -/
def flagParse (pivotpath : String) : List String → Parsed
  | [] => .ok pivotpath []
  | s :: args =>
    match argShape s.data with
    | .positional => .ok pivotpath (s :: args)
    | .terminator => .ok pivotpath args
    | .badSyntax => .exit 2
    | .named name value =>
      if name ≠ "pivot" then
        if name = "help" ∨ name = "h" then .exit 0 else .exit 2
      else
        match value, args with
        | some v, args => flagParse v args
        | none, v :: args => flagParse v args
        | none, [] => .exit 2

/-! ## `main` -/

/-- The branch of `main` that ends the process. -/
inductive Branch where
  | flagExit
  | usage
  | run (pivotpath : String)
  | init (pivotpath : String)
  deriving DecidableEq, Repr

/-- One execution of `main`: the branch taken, the effects issued by
`InitContainer`, what `main.go` wrote to standard error, and the exit code
(`none` when the process image was replaced by the shell). -/
structure MainResult where
  branch : Branch
  effects : List Effect
  stderr : String
  exit : Option Nat

/-- The function `Usage()`. -/
def Usage (prog : String) : MainResult :=
  { branch := .usage, effects := [], stderr := "Usage: " ++ prog ++ " run\n", exit := some 2 }

/-- The branch `case "init":` of `main`: a non-nil error of `InitContainer` is
printed and the process exits with code 1; a nil error gives code 0. -/
def mainInit (sys : Sys) (proc : Proc) (pivotpath : String) : MainResult :=
  match InitContainer sys proc pivotpath with
  | (tr, .returned (some err)) =>
    { branch := .init pivotpath, effects := tr, stderr := err.Error ++ "\n", exit := some 1 }
  | (tr, .returned none) =>
    { branch := .init pivotpath, effects := tr, stderr := "", exit := some 0 }
  | (tr, .replaced) =>
    { branch := .init pivotpath, effects := tr, stderr := "", exit := none }

/-- The branch `case "run":` of `main`. -/
def mainRun (host : Host) (pivotpath : String) : MainResult :=
  { branch := .run pivotpath, effects := [], stderr := (Run host pivotpath).1,
    exit := some (Run host pivotpath).2 }

/-- The function `main()` with `os.Args = prog :: args`. -/
def main (host : Host) (sys : Sys) (proc : Proc) (prog : String) (args : List String) :
    MainResult :=
  let osArgs := prog :: args
  match flagParse "/root/rootfs" args with
  | .exit code => { branch := .flagExit, effects := [], stderr := "", exit := some code }
  | .ok pivotpath _ =>
    if osArgs.length ≤ 1 then Usage prog
    else
      let last := osArgs.getLast (List.cons_ne_nil prog args)
      if last = "run" then mainRun host pivotpath
      else if last = "init" then mainInit sys proc pivotpath
      else Usage prog

/-! ## Sample systems -/

/-- A system on which every effect succeeds. -/
def okSys : Sys :=
  { call := fun _ _ => none }

/-- A system on which the effect issued after `n` others fails with `cause` and
every other effect succeeds. -/
def failAt (n : Nat) (cause : GoError) : Sys :=
  { call := fun hist _ => if hist.length = n then some cause else none }

/-- A system on which the capability apply fails with `cause` and every other
effect succeeds. -/
def applyFails (cause : GoError) : Sys :=
  { call := fun _ e => match e with
      | .capApply _ _ => some cause
      | _ => none }

/-- The capability sets of a process that holds every capability, 0 to 40, as
the first process of a new user namespace does. -/
def sampleCaps : Caps :=
  { effective := List.range 41, permitted := List.range 41, inheritable := [],
    bounding := List.range 41, ambient := [] }

/-- A sample process, holding every capability. -/
def sampleProc : Proc :=
  { pid := 1, environ := ["PATH=/bin"], rangeOrder := Equiv.refl _, caps := sampleCaps }

/-- A host whose child always ends the same way. -/
def sampleHost (uid gid : Nat) (child : ChildEnd) : Host :=
  { uid := uid, gid := gid, spawn := fun _ => child }

/-! ## The sequence of steps, for stating the theorems -/

/-- The effects `InitContainer` issues before it touches the capabilities, when
each of them succeeds. -/
def planPre (proc : Proc) (pivotpath : String) : List Effect :=
  [ .sethostname "container",
    .mkdirAll "/sys/fs/cgroup/my-container" 0o700,
    .writeFile "/sys/fs/cgroup/my-container/cgroup.procs" (toString proc.pid ++ "\n") 0o644,
    .writeFile "/sys/fs/cgroup/my-container/cpu.max" "10000 100000\n" 0o644,
    .mount "proc" (pivotpath ++ "/proc") "proc" (MS_NOEXEC ||| MS_NOSUID ||| MS_NODEV) "",
    .removeAll (pivotpath ++ "/dev"),
    .mkdirAll (pivotpath ++ "/dev") 0o777,
    .symlink (devLinks pivotpath (proc.rangeOrder 0)).1 (devLinks pivotpath (proc.rangeOrder 0)).2,
    .symlink (devLinks pivotpath (proc.rangeOrder 1)).1 (devLinks pivotpath (proc.rangeOrder 1)).2,
    .symlink (devLinks pivotpath (proc.rangeOrder 2)).1 (devLinks pivotpath (proc.rangeOrder 2)).2,
    .symlink (devLinks pivotpath (proc.rangeOrder 3)).1 (devLinks pivotpath (proc.rangeOrder 3)).2,
    .chdir "/root",
    .mount pivotpath "/root/rootfs" "" (MS_BIND ||| MS_REC) "",
    .mkdirAll "/root/rootfs/oldrootfs" 0o700,
    .pivotRoot "rootfs" "/root/rootfs/oldrootfs",
    .unmount "/oldrootfs" MNT_DETACH,
    .removeAll "/oldrootfs",
    .chdir "/" ]

/-- The capability state handed to `Apply`: the object returned by `NewPid2`
with `CAP_CHOWN` unset in the sets `CAPS|BOUNDS`. -/
def droppedCaps : Caps :=
  newPidObject.Unset (CAPS ||| BOUNDS) [CAP_CHOWN]

/-- The whole sequence of effects of `InitContainer` when each of them succeeds. -/
def plan (proc : Proc) (pivotpath : String) : List Effect :=
  planPre proc pivotpath ++
  [ .newPid2 proc.pid,
    .capApply droppedCaps (CAPS ||| BOUNDS),
    .exec "/bin/sh" ["/bin/sh"] proc.environ ]

/-- The answer of the system to the effect number `i` of the sequence `es`, asked
after the effects before it: `none` when it succeeds (or when there is no such
effect). -/
def respAt (sys : Sys) (es : List Effect) (i : Nat) : Option GoError :=
  match es[i]? with
  | some e => sys.call (es.take i) e
  | none => none

/-- An effect paired with the error `InitContainer` returns when it fails. -/
structure PlanStep where
  eff : Effect
  onErr : GoError → GoError

/-- Running a list of steps: each effect is issued after the ones before it
succeeded, the first failure returns, and after the last one the process image
is replaced. -/
def runSteps (sys : Sys) : List PlanStep → List Effect → List Effect × InitResult
  | [], tr => (tr, .replaced)
  | s :: rest, tr =>
    match sys.call tr s.eff with
    | some err => (tr ++ [s.eff], .returned (some (s.onErr err)))
    | none => runSteps sys rest (tr ++ [s.eff])

/-- The error `InitContainer` returns when a step fails with `err`, step by
step. The apply step formats the variable `err` of the capability read, which
is nil there, and not the error of the apply. -/
def planErr : List (GoError → GoError) :=
  [ fun err => Errorf "Setting hostname failed!: " .w (some err),
    fun err => Errorf "Cgroups namespace create failed!: " .w (some err),
    fun err => Errorf "Cgroup register tasks to my-container namespace failed!: " .w (some err),
    fun err => Errorf "Cgroup add limit cpu failed!: " .w (some err),
    fun err => Errorf "Proc mount failed!: " .w (some err),
    fun err => Errorf "Remove dev dir failed: " .w (some err),
    fun err => Errorf "Make dev dir failed: " .w (some err),
    fun err => Errorf "ln failed: " .w (some err),
    fun err => Errorf "ln failed: " .w (some err),
    fun err => Errorf "ln failed: " .w (some err),
    fun err => Errorf "ln failed: " .w (some err),
    fun err => Errorf "Chdir /root failed!: " .w (some err),
    fun err => Errorf "Rootfs bind mount failed!: " .w (some err),
    fun err => Errorf "Oldrootfs create failed!: " .w (some err),
    fun err => Errorf "Pivotroot failed!: " .s (some err),
    fun err => Errorf "Oldrootfs umount failed!: " .s (some err),
    fun err => Errorf "Remove oldrootfs failed: " .w (some err),
    fun err => Errorf "Chdir failed!: " .w (some err),
    fun err => Errorf "Make Capability failed!: " .w (some err),
    fun _ => Errorf "Apply Capability failed!: " .w none,
    fun err => Errorf "Exec failed!: " .w (some err) ]

/-- The steps of `InitContainer`: the effects of `plan`, each with the error
returned on its failure. -/
def planSteps (proc : Proc) (pivotpath : String) : List PlanStep :=
  List.zipWith PlanStep.mk (plan proc pivotpath) planErr

/-- The component of the specification an effect belongs to. -/
inductive Component where
  | filesystemPreparer
  | resourceLimiter
  | privilegeReducer
  | shellLauncher
  deriving DecidableEq, Repr

/-- The component of each effect, after sections 4.2 to 4.5 of the
specification: the cgroup directory and its two control files are the Resource
Limiter, the capability calls the Privilege Reducer, the exec the Shell
Launcher, everything else the Filesystem Preparer. -/
def Effect.component : Effect → Component
  | .mkdirAll path _ =>
    if path = "/sys/fs/cgroup/my-container" then .resourceLimiter else .filesystemPreparer
  | .writeFile _ _ _ => .resourceLimiter
  | .newPid2 _ => .privilegeReducer
  | .capApply _ _ => .privilegeReducer
  | .exec _ _ _ => .shellLauncher
  | _ => .filesystemPreparer

/-- The components in the order in which `InitContainer` enters them, one entry
for each effect of its sequence: the hostname, the three cgroup steps, the
fourteen remaining filesystem steps, the two capability steps, the exec. -/
def componentOrder : List Component :=
  [.filesystemPreparer, .resourceLimiter, .resourceLimiter, .resourceLimiter] ++
  List.replicate 14 .filesystemPreparer ++
  [.privilegeReducer, .privilegeReducer, .shellLauncher]

/-- Whether an effect is the exec of a program. -/
def Effect.isExec : Effect → Bool
  | .exec _ _ _ => true
  | _ => false

/-- Whether an effect reads or applies capabilities. -/
def Effect.isCap : Effect → Bool
  | .newPid2 _ => true
  | .capApply _ _ => true
  | _ => false

/-! ## Lemmas on running a list of steps -/

theorem runSteps_all_ok (sys : Sys) (steps : List PlanStep) (tr : List Effect)
    (h : ∀ i (hi : i < steps.length),
      sys.call (tr ++ (steps.take i).map PlanStep.eff) steps[i].eff = none) :
    runSteps sys steps tr = (tr ++ steps.map PlanStep.eff, .replaced) := by
  induction steps generalizing tr with
  | nil => simp [runSteps]
  | cons s rest ih =>
    have h0 := h 0 (by simp)
    simp only [List.take_zero, List.map_nil, List.append_nil, List.getElem_cons_zero] at h0
    rw [runSteps, h0]
    rw [ih (tr ++ [s.eff])]
    · simp
    · intro i hi
      have := h (i + 1) (by simpa using hi)
      simpa using this

theorem runSteps_first_fail (sys : Sys) (steps : List PlanStep) (tr : List Effect)
    (i : Nat) (hi : i < steps.length) (cause : GoError)
    (hok : ∀ j (hj : j < i),
      sys.call (tr ++ (steps.take j).map PlanStep.eff) (steps[j]).eff = none)
    (hf : sys.call (tr ++ (steps.take i).map PlanStep.eff) steps[i].eff = some cause) :
    runSteps sys steps tr =
      (tr ++ (steps.take (i + 1)).map PlanStep.eff, .returned (some (steps[i].onErr cause))) := by
  induction steps generalizing tr i with
  | nil => simp at hi
  | cons s rest ih =>
    cases i with
    | zero =>
      simp only [List.take_zero, List.map_nil, List.append_nil, List.getElem_cons_zero] at hf
      rw [runSteps, hf]
      simp
    | succ i =>
      have h0 := hok 0 (by omega)
      simp only [List.take_zero, List.map_nil, List.append_nil, List.getElem_cons_zero] at h0
      rw [runSteps, h0]
      have hi2 : i < rest.length := by simpa using hi
      rw [ih (tr ++ [s.eff]) i hi2]
      · simp
      · intro j hj
        have := hok (j + 1) (by omega)
        simpa using this
      · simpa using hf

theorem step_eq_runSteps (sys : Sys) (tr : List Effect) (e : Effect) (ctx : String) (verb : Verb)
    (k : List Effect → List Effect × InitResult) (f : GoError → GoError) (rest : List PlanStep)
    (hf : ∀ err, f err = Errorf ctx verb (some err))
    (hk : k (tr ++ [e]) = runSteps sys rest (tr ++ [e])) :
    step sys tr e ctx verb k = runSteps sys (⟨e, f⟩ :: rest) tr := by
  rw [runSteps, step]
  cases h : sys.call tr e with
  | none => simpa using hk
  | some err => simp [hf]

theorem capTail_eq_runSteps (sys : Sys) (tr : List Effect) (pid : Nat) (caps caps' : Caps)
    (envv : List String) (hc : caps = caps') :
    (if sys.call tr (.newPid2 pid) ≠ none then
      (tr ++ [.newPid2 pid],
        InitResult.returned (some (Errorf "Make Capability failed!: " .w
          (sys.call tr (.newPid2 pid)))))
    else
      if sys.call (tr ++ [.newPid2 pid]) (.capApply caps (CAPS ||| BOUNDS)) ≠ none then
        (tr ++ [.newPid2 pid] ++ [.capApply caps (CAPS ||| BOUNDS)],
          InitResult.returned (some (Errorf "Apply Capability failed!: " .w
            (sys.call tr (.newPid2 pid)))))
      else
        match sys.call (tr ++ [.newPid2 pid] ++ [.capApply caps (CAPS ||| BOUNDS)])
            (.exec "/bin/sh" ["/bin/sh"] envv) with
        | some err =>
          (tr ++ [.newPid2 pid] ++ [.capApply caps (CAPS ||| BOUNDS)] ++
              [.exec "/bin/sh" ["/bin/sh"] envv],
            InitResult.returned (some (Errorf "Exec failed!: " .w (some err))))
        | none =>
          (tr ++ [.newPid2 pid] ++ [.capApply caps (CAPS ||| BOUNDS)] ++
              [.exec "/bin/sh" ["/bin/sh"] envv], InitResult.replaced)) =
    runSteps sys
      [ ⟨.newPid2 pid, fun err => Errorf "Make Capability failed!: " .w (some err)⟩,
        ⟨.capApply caps' (CAPS ||| BOUNDS), fun _ => Errorf "Apply Capability failed!: " .w none⟩,
        ⟨.exec "/bin/sh" ["/bin/sh"] envv, fun err => Errorf "Exec failed!: " .w (some err)⟩ ]
      tr := by
  subst hc
  simp only [runSteps]
  cases h1 : sys.call tr (.newPid2 pid) with
  | some e1 => simp
  | none =>
    cases h2 : sys.call (tr ++ [.newPid2 pid]) (.capApply caps (CAPS ||| BOUNDS)) with
    | some e2 => simp
    | none =>
      cases h3 : sys.call (tr ++ [.newPid2 pid] ++ [.capApply caps (CAPS ||| BOUNDS)])
          (.exec "/bin/sh" ["/bin/sh"] envv) with
      | some e3 => simp
      | none => simp

theorem InitContainer_eq_runSteps (sys : Sys) (proc : Proc) (pivotpath : String) :
    InitContainer sys proc pivotpath = runSteps sys (planSteps proc pivotpath) [] := by
  unfold InitContainer planSteps plan planPre planErr
  simp only [rangeLinks, List.map, symlinkLoop, List.cons_append, List.nil_append,
    List.zipWith]
  iterate 18 refine step_eq_runSteps _ _ _ _ _ _ _ _ (fun _ => rfl) ?_
  exact capTail_eq_runSteps sys _ proc.pid _ _ proc.environ rfl

/-! ## `InitContainer` along its sequence of steps -/

theorem plan_length (proc : Proc) (pivotpath : String) :
    (plan proc pivotpath).length = 21 := by
  simp [plan, planPre]

theorem planSteps_length (proc : Proc) (pivotpath : String) :
    (planSteps proc pivotpath).length = 21 := by
  simp [planSteps, plan_length, planErr]

theorem planSteps_eff (proc : Proc) (pivotpath : String) :
    (planSteps proc pivotpath).map PlanStep.eff = plan proc pivotpath := by
  simp [planSteps, plan, planPre, planErr]

theorem planSteps_getElem_eff (proc : Proc) (pivotpath : String) (i : Nat)
    (h1 : i < (planSteps proc pivotpath).length) (h2 : i < (plan proc pivotpath).length) :
    ((planSteps proc pivotpath)[i]).eff = (plan proc pivotpath)[i] := by
  have h := planSteps_eff proc pivotpath
  have h3 : ((planSteps proc pivotpath).map PlanStep.eff)[i]? = (plan proc pivotpath)[i]? := by
    rw [h]
  rw [List.getElem?_map, List.getElem?_eq_getElem h1, List.getElem?_eq_getElem h2] at h3
  simpa using h3

theorem respAt_lt (sys : Sys) (es : List Effect) (i : Nat) (h : i < es.length) :
    respAt sys es i = sys.call (es.take i) es[i] := by
  simp [respAt, List.getElem?_eq_getElem h]

theorem respAt_planSteps (sys : Sys) (proc : Proc) (pivotpath : String) (i : Nat)
    (h : i < (planSteps proc pivotpath).length) :
    sys.call ([] ++ ((planSteps proc pivotpath).take i).map PlanStep.eff)
        ((planSteps proc pivotpath)[i]).eff =
      respAt sys (plan proc pivotpath) i := by
  have h2 : i < (plan proc pivotpath).length := by
    rw [plan_length]; rw [planSteps_length] at h; exact h
  rw [respAt_lt sys _ i h2, planSteps_getElem_eff proc pivotpath i h h2, List.nil_append,
    List.map_take, planSteps_eff]

theorem InitContainer_all_ok (sys : Sys) (proc : Proc) (pivotpath : String)
    (h : ∀ i, i < 21 → respAt sys (plan proc pivotpath) i = none) :
    InitContainer sys proc pivotpath = (plan proc pivotpath, .replaced) := by
  rw [InitContainer_eq_runSteps, runSteps_all_ok]
  · rw [planSteps_eff, List.nil_append]
  · intro i hi
    rw [respAt_planSteps sys proc pivotpath i hi]
    exact h i (by rw [planSteps_length] at hi; exact hi)

theorem InitContainer_first_fail (sys : Sys) (proc : Proc) (pivotpath : String) (k : Nat)
    (cause : GoError) (hk : k < 21)
    (hok : ∀ i, i < k → respAt sys (plan proc pivotpath) i = none)
    (hf : respAt sys (plan proc pivotpath) k = some cause) :
    ∃ err, InitContainer sys proc pivotpath =
      ((plan proc pivotpath).take (k + 1), .returned (some err)) := by
  have hk2 : k < (planSteps proc pivotpath).length := by rw [planSteps_length]; exact hk
  refine ⟨((planSteps proc pivotpath)[k]).onErr cause, ?_⟩
  rw [InitContainer_eq_runSteps, runSteps_first_fail sys _ [] k hk2 cause]
  · rw [List.nil_append, List.map_take, planSteps_eff]
  · intro j hj
    rw [respAt_planSteps sys proc pivotpath j (by omega)]
    exact hok j hj
  · rw [respAt_planSteps sys proc pivotpath k hk2]
    exact hf

theorem InitContainer_cases (sys : Sys) (proc : Proc) (pivotpath : String) :
    ((∀ i, i < 21 → respAt sys (plan proc pivotpath) i = none) ∧
      InitContainer sys proc pivotpath = (plan proc pivotpath, .replaced)) ∨
    ∃ k cause err, k < 21 ∧ (∀ i, i < k → respAt sys (plan proc pivotpath) i = none) ∧
      respAt sys (plan proc pivotpath) k = some cause ∧
      InitContainer sys proc pivotpath =
        ((plan proc pivotpath).take (k + 1), .returned (some err)) := by
  by_cases h : ∃ k, k < 21 ∧ respAt sys (plan proc pivotpath) k ≠ none
  · right
    classical
    have hspec := Nat.find_spec h
    have hmin := fun m (hm : m < Nat.find h) => Nat.find_min h hm
    obtain ⟨cause, hc⟩ := Option.ne_none_iff_exists'.mp hspec.2
    have hok : ∀ i, i < Nat.find h → respAt sys (plan proc pivotpath) i = none := by
      intro i hi
      by_contra hne
      exact hmin i hi ⟨by omega, hne⟩
    obtain ⟨err, he⟩ := InitContainer_first_fail sys proc pivotpath _ cause hspec.1 hok hc
    exact ⟨Nat.find h, cause, err, hspec.1, hok, hc, he⟩
  · left
    have hall : ∀ i, i < 21 → respAt sys (plan proc pivotpath) i = none := by
      intro i hi
      by_contra hne
      exact h ⟨i, hi, hne⟩
    exact ⟨hall, InitContainer_all_ok sys proc pivotpath hall⟩

/-! ## Facts on the sequence of steps -/

theorem append_dev_ne (p s : String) (hs : s.data.getLast? ≠ some 'v') : p ++ "/dev" ≠ s := by
  intro h
  apply hs
  rw [← h]
  simp [String.data_append]

theorem respAt_of_all_ok (sys : Sys) (es : List Effect) (i : Nat)
    (hok : ∀ hist e, sys.call hist e = none) : respAt sys es i = none := by
  unfold respAt
  split <;> simp [hok]

theorem mem_take_plan (proc : Proc) (pivotpath : String) (n m : Nat) (h : n ≤ m)
    (x : Effect) (hx : x ∈ (plan proc pivotpath).take n) :
    x ∈ (plan proc pivotpath).take m := by
  have : (plan proc pivotpath).take n = ((plan proc pivotpath).take m).take n := by
    rw [List.take_take, Nat.min_eq_left h]
  rw [this] at hx
  exact List.mem_of_mem_take hx

theorem plan_take_no_exec (proc : Proc) (pivotpath : String) (x : Effect)
    (hx : x ∈ (plan proc pivotpath).take 20) : x.isExec = false := by
  simp only [plan, planPre, List.cons_append, List.nil_append, List.take_succ_cons,
    List.take_zero, List.mem_cons, List.mem_nil_iff, or_false] at hx
  rcases hx with h | h | h | h | h | h | h | h | h | h | h | h | h | h | h | h | h | h | h | h <;>
    subst h <;> rfl

theorem plan_take_no_cap (proc : Proc) (pivotpath : String) (x : Effect)
    (hx : x ∈ (plan proc pivotpath).take 18) : x.isCap = false ∧ x.isExec = false := by
  simp only [plan, planPre, List.cons_append, List.nil_append, List.take_succ_cons,
    List.take_zero, List.mem_cons, List.mem_nil_iff, or_false] at hx
  rcases hx with h | h | h | h | h | h | h | h | h | h | h | h | h | h | h | h | h | h <;>
    subst h <;> exact ⟨rfl, rfl⟩

theorem devLinks_fst_injective (p : String) (i j : Fin 4)
    (h : (devLinks p i).1 = (devLinks p j).1) : i = j := by
  fin_cases i <;> fin_cases j <;> first | rfl | (exfalso; revert h; simp [devLinks])

theorem plan_component (proc : Proc) (pivotpath : String) :
    (plan proc pivotpath).map Effect.component = componentOrder := by
  have h : pivotpath ++ "/dev" ≠ "/sys/fs/cgroup/my-container" :=
    append_dev_ne _ _ (by decide)
  simp [plan, planPre, componentOrder, Effect.component, h, List.replicate]

theorem plan_nodup (proc : Proc) (pivotpath : String) :
    (plan proc pivotpath).Nodup := by
  have h : pivotpath ++ "/dev" ≠ "/oldrootfs" := append_dev_ne _ _ (by decide)
  have hinj : ∀ i j : Fin 4, i ≠ j →
      (devLinks pivotpath (proc.rangeOrder i)).1 ≠ (devLinks pivotpath (proc.rangeOrder j)).1 := by
    intro i j hij heq
    exact hij (proc.rangeOrder.injective (devLinks_fst_injective _ _ _ heq))
  have h01 := hinj 0 1 (by decide)
  have h02 := hinj 0 2 (by decide)
  have h03 := hinj 0 3 (by decide)
  have h12 := hinj 1 2 (by decide)
  have h13 := hinj 1 3 (by decide)
  have h23 := hinj 2 3 (by decide)
  simp [plan, planPre, h, h01, h02, h03, h12, h13, h23]

theorem mainInit_exit_of_error (sys : Sys) (proc : Proc) (pivotpath : String) (tr : List Effect)
    (err : GoError) (h : InitContainer sys proc pivotpath = (tr, .returned (some err))) :
    (mainInit sys proc pivotpath).exit = some 1 ∧ (mainInit sys proc pivotpath).effects = tr ∧
      (mainInit sys proc pivotpath).stderr = err.Error ++ "\n" := by
  simp [mainInit, h]

/-! ## The claims on `InitContainer` -/

/-- C3: when every system effect succeeds, `InitContainer` issues exactly this
sequence of effects, in this order, and ends with the process image replaced:
hostname, cgroup directory, `cgroup.procs`, `cpu.max`, proc mount, removal and
creation of `dev`, the four symlinks (in the order the map iteration visits
them), chdir `/root`, recursive bind mount, `oldrootfs` directory, pivot root,
detaching unmount, removal of `/oldrootfs`, chdir `/`, capability read,
capability apply, exec of `/bin/sh`. No effect occurs twice in it. -/
theorem C3_effect_sequence_when_all_succeed (sys : Sys) (proc : Proc) (pivotpath : String)
    (hok : ∀ hist e, sys.call hist e = none) :
    InitContainer sys proc pivotpath =
      ([ .sethostname "container",
         .mkdirAll "/sys/fs/cgroup/my-container" 0o700,
         .writeFile "/sys/fs/cgroup/my-container/cgroup.procs" (toString proc.pid ++ "\n") 0o644,
         .writeFile "/sys/fs/cgroup/my-container/cpu.max" "10000 100000\n" 0o644,
         .mount "proc" (pivotpath ++ "/proc") "proc" (MS_NOEXEC ||| MS_NOSUID ||| MS_NODEV) "",
         .removeAll (pivotpath ++ "/dev"),
         .mkdirAll (pivotpath ++ "/dev") 0o777,
         .symlink (devLinks pivotpath (proc.rangeOrder 0)).1
           (devLinks pivotpath (proc.rangeOrder 0)).2,
         .symlink (devLinks pivotpath (proc.rangeOrder 1)).1
           (devLinks pivotpath (proc.rangeOrder 1)).2,
         .symlink (devLinks pivotpath (proc.rangeOrder 2)).1
           (devLinks pivotpath (proc.rangeOrder 2)).2,
         .symlink (devLinks pivotpath (proc.rangeOrder 3)).1
           (devLinks pivotpath (proc.rangeOrder 3)).2,
         .chdir "/root",
         .mount pivotpath "/root/rootfs" "" (MS_BIND ||| MS_REC) "",
         .mkdirAll "/root/rootfs/oldrootfs" 0o700,
         .pivotRoot "rootfs" "/root/rootfs/oldrootfs",
         .unmount "/oldrootfs" MNT_DETACH,
         .removeAll "/oldrootfs",
         .chdir "/",
         .newPid2 proc.pid,
         .capApply droppedCaps (CAPS ||| BOUNDS),
         .exec "/bin/sh" ["/bin/sh"] proc.environ ], .replaced) ∧
    (InitContainer sys proc pivotpath).1.Nodup := by
  have h := InitContainer_all_ok sys proc pivotpath
    (fun i _ => respAt_of_all_ok sys _ i hok)
  refine ⟨?_, ?_⟩
  · rw [h]; rfl
  · rw [h]; exact plan_nodup proc pivotpath

/-- C3, at a concrete input: the system on which everything succeeds. -/
theorem C3_effect_sequence_when_all_succeed_witness :
    (∀ hist e, okSys.call hist e = none) ∧
    (InitContainer okSys sampleProc "/root/rootfs").1.length = 21 ∧
    (InitContainer okSys sampleProc "/root/rootfs").2 = .replaced :=
  ⟨fun _ _ => rfl,
   by rw [(C3_effect_sequence_when_all_succeed okSys sampleProc "/root/rootfs"
        (fun _ _ => rfl)).1]; rfl,
   by rw [(C3_effect_sequence_when_all_succeed okSys sampleProc "/root/rootfs"
        (fun _ _ => rfl)).1]⟩

/-- C4: if step `k` of the sequence of `InitContainer` is the first whose effect
fails, the effects issued are exactly the steps up to and including `k` (no
later step, nothing repeated, nothing undone), `InitContainer` returns a
non-nil error and the init entry point of `main` exits with code 1; when the
failing step comes before the capability read (as the proc mount, step 4) no
capability read, capability apply or exec is issued. -/
theorem C4_abort_at_first_failure (sys : Sys) (proc : Proc) (pivotpath : String) (k : Nat)
    (cause : GoError) (hk : k < 21)
    (hok : ∀ i, i < k → respAt sys (plan proc pivotpath) i = none)
    (hfail : respAt sys (plan proc pivotpath) k = some cause) :
    (InitContainer sys proc pivotpath).1 = (plan proc pivotpath).take (k + 1) ∧
    (InitContainer sys proc pivotpath).1.Nodup ∧
    (∃ err, (InitContainer sys proc pivotpath).2 = .returned (some err)) ∧
    (mainInit sys proc pivotpath).exit = some 1 ∧
    (mainInit sys proc pivotpath).effects = (plan proc pivotpath).take (k + 1) ∧
    (k < 18 → ∀ x ∈ (InitContainer sys proc pivotpath).1, x.isCap = false ∧ x.isExec = false) := by
  obtain ⟨err, he⟩ := InitContainer_first_fail sys proc pivotpath k cause hk hok hfail
  have hm := mainInit_exit_of_error sys proc pivotpath _ err he
  refine ⟨by rw [he], ?_, ⟨err, by rw [he]⟩, hm.1, hm.2.1, ?_⟩
  · rw [he]
    exact (plan_nodup proc pivotpath).sublist (List.take_sublist _ _)
  · intro hk18 x hx
    rw [he] at hx
    exact plan_take_no_cap proc pivotpath x
      (mem_take_plan proc pivotpath (k + 1) 18 (by omega) x hx)

theorem respAt_failAt (n : Nat) (cause : GoError) (proc : Proc) (pivotpath : String)
    (i : Nat) (hi : i < 21) :
    respAt (failAt n cause) (plan proc pivotpath) i =
      if i = n then some cause else none := by
  have hl := plan_length proc pivotpath
  rw [respAt_lt _ _ i (by omega)]
  simp only [failAt, List.length_take, plan_length]
  have : min i 21 = i := by omega
  rw [this]

/-- C4, at a concrete input: the proc mount (step 4) fails with `ENOENT`. -/
theorem C4_abort_at_first_failure_witness :
    (InitContainer (failAt 4 (.leaf "no such file or directory")) sampleProc
        "/nonexistent").1 =
      (plan sampleProc
        "/nonexistent").take 5 ∧
    (mainInit (failAt 4 (.leaf "no such file or directory")) sampleProc
        "/nonexistent").exit = some 1 :=
  have h := C4_abort_at_first_failure (failAt 4 (.leaf "no such file or directory"))
    sampleProc "/nonexistent" 4 (.leaf "no such file or directory") (by decide)
    (fun i hi => by rw [respAt_failAt _ _ _ _ i (by omega)]; simp; omega)
    (by rw [respAt_failAt _ _ _ _ 4 (by decide)]; simp)
  ⟨h.1, h.2.2.2.1⟩

/-- C5, at the failing input: a process that holds every capability, on a system
where every call succeeds. `InitContainer` issues the capability read, the
apply and the exec in this order, but the state it hands to `Apply` is the
object of `NewPid2` with nothing loaded: every set of it is empty, whatever the
process holds, and so it is in every run in which an apply is issued.
`CAP_DAC_OVERRIDE`, which is not `CAP_CHOWN` and which the process holds in its
effective, permitted and bounding sets, is in none of the sets applied. -/
theorem C5_apply_state_not_loaded (sys : Sys) (proc : Proc) (pivotpath : String) :
    InitContainer okSys proc pivotpath =
      (planPre proc pivotpath ++
        [ .newPid2 proc.pid,
          .capApply { effective := [], permitted := [], inheritable := [], bounding := [],
                      ambient := [] } (CAPS ||| BOUNDS),
          .exec "/bin/sh" ["/bin/sh"] proc.environ ], .replaced) ∧
    (∀ caps kind, Effect.capApply caps kind ∈ (InitContainer sys proc pivotpath).1 →
      caps = { effective := [], permitted := [], inheritable := [], bounding := [],
               ambient := [] }) ∧
    (InitContainer okSys sampleProc "/root/rootfs").1[19]? =
      some (.capApply { effective := [], permitted := [], inheritable := [], bounding := [],
                        ambient := [] } (CAPS ||| BOUNDS)) ∧
    (InitContainer okSys sampleProc "/root/rootfs").1[20]? =
      some (.exec "/bin/sh" ["/bin/sh"] sampleProc.environ) ∧
    CAP_DAC_OVERRIDE ≠ CAP_CHOWN ∧
    CAP_DAC_OVERRIDE ∈ sampleProc.caps.effective ∧
    CAP_DAC_OVERRIDE ∈ sampleProc.caps.permitted ∧
    CAP_DAC_OVERRIDE ∈ sampleProc.caps.bounding ∧
    (∀ caps kind,
      Effect.capApply caps kind ∈ (InitContainer okSys sampleProc "/root/rootfs").1 →
      CAP_DAC_OVERRIDE ∉ caps.effective ∧ CAP_DAC_OVERRIDE ∉ caps.permitted ∧
      CAP_DAC_OVERRIDE ∉ caps.bounding) := by
  have hd : droppedCaps = newPidObject := by decide
  have hall : ∀ (sys : Sys) (proc : Proc) (pivotpath : String) (caps : Caps) (kind : Nat),
      Effect.capApply caps kind ∈ (InitContainer sys proc pivotpath).1 →
      caps = newPidObject := by
    intro sys proc pivotpath caps kind h
    have hp : (InitContainer sys proc pivotpath).1 <+: plan proc pivotpath := by
      rcases InitContainer_cases sys proc pivotpath with ⟨_, he⟩ | ⟨k, cause, err, hk, hok, hf, he⟩
      · rw [he]
      · rw [he]; exact List.take_prefix _ _
    have hm := hp.subset h
    simp only [plan, planPre, List.cons_append, List.nil_append, List.mem_cons,
      List.mem_nil_iff, or_false, reduceCtorEq, false_or, Effect.capApply.injEq] at hm
    rw [hm.1, hd]
  have hok : InitContainer okSys proc pivotpath = (plan proc pivotpath, .replaced) :=
    InitContainer_all_ok okSys proc pivotpath
      (fun i _ => respAt_of_all_ok okSys _ i (fun _ _ => rfl))
  refine ⟨?_, hall sys proc pivotpath, by rfl, by rfl, by decide, by decide, by decide,
    by decide, ?_⟩
  · rw [hok, plan, hd]
    rfl
  · intro caps kind h
    rw [hall okSys sampleProc "/root/rootfs" caps kind h]
    simp [newPidObject]

/-- C6, at the failing input: when the capability apply fails (here on a system
where everything else succeeds), whatever the cause, `InitContainer` returns
the error with message `Apply Capability failed!: %!w(<nil>)`, which wraps
nothing; `main` prints that message and exits with code 1. For the cause
`operation not permitted` the message does not contain the cause. -/
theorem C6_apply_error_drops_cause (cause : GoError) (proc : Proc) (pivotpath : String) :
    (InitContainer (applyFails cause) proc pivotpath).2 =
      .returned (some (.leaf "Apply Capability failed!: %!w(<nil>)")) ∧
    (GoError.leaf "Apply Capability failed!: %!w(<nil>)").Unwrap = none ∧
    (mainInit (applyFails cause) proc pivotpath).stderr =
      "Apply Capability failed!: %!w(<nil>)\n" ∧
    (mainInit (applyFails cause) proc pivotpath).exit = some 1 ∧
    (InitContainer (applyFails (.leaf "operation not permitted")) sampleProc
        "/root/rootfs").2 =
      .returned (some (.leaf "Apply Capability failed!: %!w(<nil>)")) ∧
    ¬ ("operation not permitted".data <:+: "Apply Capability failed!: %!w(<nil>)".data) := by
  refine ⟨by rfl, by rfl, by rfl, by rfl, by rfl, by decide⟩

/-- C7, as stated, fails: on a system where every effect succeeds, the cgroup
directory creation (a Resource Limiter step) is issued at position 1, before
the proc mount (a Filesystem Preparer step) at position 4. -/
theorem C7_counterexample :
    ¬ (∀ (i j : Nat) (x y : Effect),
        (InitContainer okSys sampleProc "/root/rootfs").1[i]? = some x →
        (InitContainer okSys sampleProc "/root/rootfs").1[j]? = some y →
        x.component = .filesystemPreparer → y.component = .resourceLimiter → i < j) := by
  intro h
  have := h 4 1 (.mount "proc" "/root/rootfs/proc" "proc" (MS_NOEXEC ||| MS_NOSUID ||| MS_NODEV) "")
    (.mkdirAll "/sys/fs/cgroup/my-container" 0o700) (by rfl) (by rfl) (by rfl) (by rfl)
  omega

/-- C7, amended: in every run of `InitContainer` the effects issued are an
initial part of its sequence of steps, and along that sequence the components
are entered in the order: hostname (Filesystem Preparer), the three Resource
Limiter steps, the remaining fourteen Filesystem Preparer steps from the proc
mount to the chdir to `/`, the two Privilege Reducer steps, the Shell
Launcher. -/
theorem C7_component_order (sys : Sys) (proc : Proc) (pivotpath : String) :
    (InitContainer sys proc pivotpath).1 <+: plan proc pivotpath ∧
    (plan proc pivotpath).map Effect.component =
      [.filesystemPreparer, .resourceLimiter, .resourceLimiter, .resourceLimiter] ++
      List.replicate 14 .filesystemPreparer ++
      [.privilegeReducer, .privilegeReducer, .shellLauncher] ∧
    (InitContainer sys proc pivotpath).1.map Effect.component <+:
      [.filesystemPreparer, .resourceLimiter, .resourceLimiter, .resourceLimiter] ++
      List.replicate 14 .filesystemPreparer ++
      [.privilegeReducer, .privilegeReducer, .shellLauncher] := by
  have hc := plan_component proc pivotpath
  rw [componentOrder] at hc
  have hp : (InitContainer sys proc pivotpath).1 <+: plan proc pivotpath := by
    rcases InitContainer_cases sys proc pivotpath with ⟨_, he⟩ | ⟨k, cause, err, hk, hok, hf, he⟩
    · rw [he]
    · rw [he]; exact List.take_prefix _ _
  refine ⟨hp, hc, ?_⟩
  rw [← hc]
  obtain ⟨t, ht⟩ := hp
  exact ⟨t.map Effect.component, by rw [← ht, List.map_append]⟩

/-! ## The claims on `Run` and `main` -/

/-- C1, as stated, fails: a child that exits with status 130 makes `Run` exit
with code 1, not 130. -/
theorem C1_counterexample :
    ¬ (∀ (host : Host) (pivotpath : String) (c : Nat),
        host.spawn (runCmd host pivotpath) = .exited c → (Run host pivotpath).2 = c) := by
  intro h
  have := h (sampleHost 1000 1000 (.exited 130)) "/root/rootfs" 130 rfl
  revert this
  decide

/-- C1, amended: when the child terminates with exit status `c`, `Run` exits
with code 0 if `c` is 0 and with code 1 otherwise; so the outer code equals the
child's for `c = 0` and `c = 1`, and is 1 for `c = 130`. -/
theorem C1_run_exit_code (host : Host) (pivotpath : String) (c : Nat)
    (hc : host.spawn (runCmd host pivotpath) = .exited c) :
    (Run host pivotpath).2 = (if c = 0 then 0 else 1) ∧
    ((Run host pivotpath).2 = c ↔ c ≤ 1) := by
  cases c with
  | zero => simp [Run, cmdRun, hc]
  | succ n =>
    simp only [Run, cmdRun, hc]
    constructor
    · simp
    · omega

/-- C1 amended, at a concrete input: the child exits with status 130. -/
theorem C1_run_exit_code_witness :
    (sampleHost 1000 1000 (.exited 130)).spawn
        (runCmd (sampleHost 1000 1000 (.exited 130)) "/root/rootfs") = .exited 130 ∧
    (Run (sampleHost 1000 1000 (.exited 130)) "/root/rootfs").2 = 1 :=
  ⟨rfl, (C1_run_exit_code (sampleHost 1000 1000 (.exited 130)) "/root/rootfs" 130 rfl).1⟩

/-- C2, at the failing input uid 1000, gid 100: the spawn attributes built by
`Run` hold the single uid mapping `{0, 1000, 1}` and the single gid mapping
`{0, 1000, 1}`, whose host id is the caller's uid and not the caller's gid
100; for every caller the host id of the gid mapping is the uid. -/
theorem C2_gid_mapping_uses_uid (host : Host) (pivotpath : String) :
    (runCmd host pivotpath).attr.UidMappings =
      [{ ContainerID := 0, HostID := host.uid, Size := 1 }] ∧
    (runCmd host pivotpath).attr.GidMappings =
      [{ ContainerID := 0, HostID := host.uid, Size := 1 }] ∧
    (runCmd (sampleHost 1000 100 (.exited 0)) "/root/rootfs").attr.GidMappings =
      [{ ContainerID := 0, HostID := 1000, Size := 1 }] ∧
    (runCmd (sampleHost 1000 100 (.exited 0)) "/root/rootfs").attr.GidMappings ≠
      [{ ContainerID := 0, HostID := (sampleHost 1000 100 (.exited 0)).gid, Size := 1 }] := by
  refine ⟨rfl, rfl, rfl, by decide⟩

theorem getLast_cons_of_getLast_eq (prog t : String) (args : List String)
    (h : args.getLast? = some t) : (prog :: args).getLast (List.cons_ne_nil prog args) = t := by
  cases args with
  | nil => simp at h
  | cons a rest =>
    rw [List.getLast_cons (List.cons_ne_nil a rest)]
    rw [List.getLast?_eq_getLast _ (List.cons_ne_nil a rest)] at h
    exact Option.some.inj h

theorem Run_exit_le_one (host : Host) (pivotpath : String) : (Run host pivotpath).2 ≤ 1 := by
  unfold Run
  split <;> simp

theorem mainInit_exit_ne_two (sys : Sys) (proc : Proc) (pivotpath : String) :
    (mainInit sys proc pivotpath).exit ≠ some 2 := by
  unfold mainInit
  split <;> simp

theorem mainInit_branch (sys : Sys) (proc : Proc) (pivotpath : String) :
    (mainInit sys proc pivotpath).branch = .init pivotpath ∧
      (mainInit sys proc pivotpath).effects = (InitContainer sys proc pivotpath).1 := by
  unfold mainInit
  split <;> rename_i h <;> simp [h]

theorem main_of_last (host : Host) (sys : Sys) (proc : Proc) (prog t : String)
    (args rest : List String) (pivotpath : String)
    (hp : flagParse "/root/rootfs" args = .ok pivotpath rest) (ht : args.getLast? = some t) :
    main host sys proc prog args =
      if t = "run" then mainRun host pivotpath
      else if t = "init" then mainInit sys proc pivotpath else Usage prog := by
  have hlast := getLast_cons_of_getLast_eq prog t args ht
  have hlen : ¬ ((prog :: args).length ≤ 1) := by
    cases args with
    | nil => simp at ht
    | cons a as => simp
  simp only [main, hp, hlen, if_false, hlast]

/-- C8: on a command line whose flag parsing succeeds, `main` reaches `Usage`
and exits with code 2 exactly when there is no argument after the program name
or the last argument is neither `run` nor `init`, and it exits with code 2 in
no other way; a last argument `run` dispatches to `Run` with the parsed pivot
path (exit code 0 or 1), a last argument `init` dispatches to `InitContainer`
with it, and a failure of `InitContainer` then gives exit code 1, not 2. -/
theorem C8_dispatch_and_usage (host : Host) (sys : Sys) (proc : Proc) (prog : String)
    (args rest : List String) (pivotpath : String)
    (hp : flagParse "/root/rootfs" args = .ok pivotpath rest) :
    (((main host sys proc prog args).branch = .usage ∧
        (main host sys proc prog args).exit = some 2) ↔
      (args = [] ∨ ∃ t, args.getLast? = some t ∧ t ≠ "run" ∧ t ≠ "init")) ∧
    ((main host sys proc prog args).exit = some 2 →
      (main host sys proc prog args).branch = .usage) ∧
    (args.getLast? = some "run" →
      (main host sys proc prog args).branch = .run pivotpath ∧
      (main host sys proc prog args).exit = some (Run host pivotpath).2 ∧
      (Run host pivotpath).2 ≤ 1) ∧
    (args.getLast? = some "init" →
      (main host sys proc prog args).branch = .init pivotpath ∧
      (main host sys proc prog args).effects = (InitContainer sys proc pivotpath).1 ∧
      ((∃ err, (InitContainer sys proc pivotpath).2 = .returned (some err)) →
        (main host sys proc prog args).exit = some 1 ∧
        (main host sys proc prog args).exit ≠ some 2)) := by
  have hinit := mainInit_branch sys proc pivotpath
  have hle := Run_exit_le_one host pivotpath
  cases hargs : args with
  | nil =>
    subst hargs
    simp [main, hp, Usage]
  | cons a as =>
    rw [← hargs]
    have hne : args ≠ [] := by rw [hargs]; exact List.cons_ne_nil _ _
    obtain ⟨t, ht⟩ : ∃ t, args.getLast? = some t :=
      ⟨args.getLast hne, List.getLast?_eq_getLast _ hne⟩
    rw [main_of_last host sys proc prog t args rest pivotpath hp ht, ht]
    by_cases hrun : t = "run"
    · subst hrun
      have h2 : (Run host pivotpath).2 ≠ 2 := by omega
      simp [mainRun, hle, hne, h2]
    · by_cases hin : t = "init"
      · subst hin
        have hrun2 : ¬ ("init" = "run") := by decide
        simp only [hrun2, if_false, if_true]
        refine ⟨?_, ?_, ?_, ?_⟩
        · constructor
          · intro h
            exact absurd h.2 (mainInit_exit_ne_two sys proc pivotpath)
          · rintro (h | ⟨t, h1, _, h3⟩)
            · exact absurd h hne
            · exact absurd (Option.some.inj h1).symm h3
        · intro h
          exact absurd h (mainInit_exit_ne_two sys proc pivotpath)
        · intro h
          exact absurd (Option.some.inj h) hrun2
        · intro _
          refine ⟨hinit.1, hinit.2, ?_⟩
          rintro ⟨err, he⟩
          have hpair : InitContainer sys proc pivotpath =
              ((InitContainer sys proc pivotpath).1, .returned (some err)) := by
            rw [← he]
          have := (mainInit_exit_of_error sys proc pivotpath _ err hpair).1
          rw [this]
          simp
      · simp [hrun, hin, Usage, hne, Ne.symm hrun, Ne.symm hin]

/-- C8, at a concrete input: `binary -pivot /tmp/r bogus` reaches `Usage`. -/
theorem C8_dispatch_and_usage_witness :
    flagParse "/root/rootfs" ["-pivot", "/tmp/r", "bogus"] = .ok "/tmp/r" ["bogus"] ∧
    (main (sampleHost 1000 1000 (.exited 0)) okSys sampleProc "binary"
      ["-pivot", "/tmp/r", "bogus"]).branch = .usage :=
  ⟨by decide,
   (((C8_dispatch_and_usage (sampleHost 1000 1000 (.exited 0)) okSys sampleProc
      "binary" ["-pivot", "/tmp/r", "bogus"] ["bogus"] "/tmp/r" (by decide)).1).mpr
      (Or.inr ⟨"bogus", by decide, by decide, by decide⟩)).1⟩

/-- C9: for every pivot path `P`, the argument vector that `Run` gives the
re-executed child is `/proc/self/exe -pivot P init`, and `main` started with it
parses the pivot path exactly `P`, leaves `init` as the only positional
argument, and dispatches to `InitContainer` with `P`. -/
theorem C9_child_receives_pivot (host host' : Host) (sys : Sys) (proc : Proc) (P : String)
    (prog : String) (args : List String) (h : (runCmd host P).Args = prog :: args) :
    (runCmd host P).Args = ["/proc/self/exe", "-pivot", P, "init"] ∧
    flagParse "/root/rootfs" args = .ok P ["init"] ∧
    (main host' sys proc prog args).branch = .init P ∧
    (main host' sys proc prog args).effects = (InitContainer sys proc P).1 ∧
    main host' sys proc prog args = mainInit sys proc P := by
  have hA : (runCmd host P).Args = ["/proc/self/exe", "-pivot", P, "init"] := rfl
  rw [hA] at h
  obtain ⟨rfl, rfl⟩ := List.cons.inj h
  have hparse : flagParse "/root/rootfs" ["-pivot", P, "init"] = .ok P ["init"] := by
    simp [flagParse, argShape]
  have hmain : main host' sys proc "/proc/self/exe" ["-pivot", P, "init"] =
      mainInit sys proc P := by
    simp [main, hparse]
  have hinit := mainInit_branch sys proc P
  exact ⟨hA, hparse, by rw [hmain]; exact hinit.1, by rw [hmain]; exact hinit.2, hmain⟩

/-- C9, at concrete inputs: the empty pivot path and one starting with `-`. -/
theorem C9_child_receives_pivot_witness :
    (main (sampleHost 0 0 (.exited 0)) okSys sampleProc "/proc/self/exe"
      ["-pivot", "", "init"]).branch = .init "" ∧
    (main (sampleHost 0 0 (.exited 0)) okSys sampleProc "/proc/self/exe"
      ["-pivot", "-pivot", "init"]).branch = .init "-pivot" :=
  ⟨(C9_child_receives_pivot (sampleHost 0 0 (.exited 0)) (sampleHost 0 0 (.exited 0))
      okSys sampleProc "" "/proc/self/exe" ["-pivot", "", "init"] rfl).2.2.1,
   (C9_child_receives_pivot (sampleHost 0 0 (.exited 0)) (sampleHost 0 0 (.exited 0))
      okSys sampleProc "-pivot" "/proc/self/exe" ["-pivot", "-pivot", "init"]
      rfl).2.2.1⟩

/-- C10: `main` takes the directive from the last element of `os.Args`, not from
the first positional argument: for `binary -pivot run` flag parsing takes `run`
as the pivot path and leaves no positional argument, yet `main` dispatches to
`Run` with pivot path `run`; for `binary run extra` the first positional
argument is `run`, yet `main` reaches `Usage` and exits with code 2. -/
theorem C10_directive_is_last_raw_argument (host : Host) (sys : Sys) (proc : Proc) :
    flagParse "/root/rootfs" ["-pivot", "run"] = .ok "run" [] ∧
    (main host sys proc "binary" ["-pivot", "run"]).branch = .run "run" ∧
    main host sys proc "binary" ["-pivot", "run"] = mainRun host "run" ∧
    flagParse "/root/rootfs" ["run", "extra"] = .ok "/root/rootfs" ["run", "extra"] ∧
    (main host sys proc "binary" ["run", "extra"]).branch = .usage ∧
    (main host sys proc "binary" ["run", "extra"]).exit = some 2 := by
  have h1 : flagParse "/root/rootfs" ["-pivot", "run"] = .ok "run" [] := by decide
  have h2 : flagParse "/root/rootfs" ["run", "extra"] = .ok "/root/rootfs" ["run", "extra"] := by
    decide
  have m1 : main host sys proc "binary" ["-pivot", "run"] = mainRun host "run" := by
    simp [main, h1]
  have m2 : main host sys proc "binary" ["run", "extra"] = Usage "binary" := by
    simp [main, h2]
  exact ⟨h1, by rw [m1]; rfl, m1, h2, by rw [m2]; rfl, by rw [m2]; rfl⟩

end Container
